import Mathlib

/-!
Verification development for the ForestAI tree-extraction pipeline.

The Python sources under `src/utils/` (geospatial.py, segmentation.py) are
shallowly embedded below.  Pixel and geographic coordinates are modelled as
rationals; Python floats carry exact decimal literals here.  External
capabilities (OpenCV decoding, Douglas-Peucker simplification, shapely
validity, shapely buffer/union) are either passed in as function parameters
or modelled denotationally, as indicated at each definition.
-/

namespace ForestAI

/-- A 2-D point in pixel or geographic space. -/
abbrev Point : Type := ℚ × ℚ

/-! ## Substring search (Python's `in` operator on strings) -/

/-- Does `n` occur as a leading block of `h`?  (Helper for substring search.) -/
def listStartsWith : List Char → List Char → Bool
  | _, [] => true
  | [], _ :: _ => false
  | a :: as, b :: bs => a == b && listStartsWith as bs

/-- Does `n` occur contiguously anywhere inside `h`?  Models Python's
`n in h` on strings. -/
def listHasSub : List Char → List Char → Bool
  | [], n => listStartsWith [] n
  | c :: cs, n => listStartsWith (c :: cs) n || listHasSub cs n

/-- Python `sub in hay` for strings. -/
def strHasSub (hay sub : String) : Bool :=
  listHasSub hay.data sub.data

/-- Python `s.lower()` (ASCII lowering, which is all the source's inputs
use). -/
def lowerStr (s : String) : String := ⟨s.data.map Char.toLower⟩

/-! ## Shoelace area (cv2.contourArea, shapely `.area` on simple rings) -/

/-- Cross term `x₁·y₂ − x₂·y₁` of the shoelace formula. -/
def cross (a b : Point) : ℚ := a.1 * b.2 - b.1 * a.2

/-- Sum of shoelace cross terms along `prev :: rest`, wrapping back to
`first` at the end. -/
def shoelaceAux (first : Point) : Point → List Point → ℚ
  | prev, [] => cross prev first
  | prev, q :: rest => cross prev q + shoelaceAux first q rest

/-- Cyclic shoelace sum of a vertex list (the closing edge back to the first
vertex is always included, so open contours and explicitly closed rings give
the same value). -/
def shoelaceCyc : List Point → ℚ
  | [] => 0
  | p :: rest => shoelaceAux p p rest

/-- `cv2.contourArea`: absolute shoelace area of a contour. -/
def contourArea (c : List Point) : ℚ := |shoelaceCyc c| / 2

/-- shapely `polygon.area` for a simple exterior ring: same absolute
shoelace area. -/
def polyArea (ring : List Point) : ℚ := |shoelaceCyc ring| / 2

/-! ## Bounds (shapely `polygon.bounds`) -/

/-- One step of the running `(minx, miny, maxx, maxy)` accumulation. -/
def boundsStep (b : ℚ × ℚ × ℚ × ℚ) (p : Point) : ℚ × ℚ × ℚ × ℚ :=
  (min b.1 p.1, min b.2.1 p.2, max b.2.2.1 p.1, max b.2.2.2 p.2)

/-- shapely `polygon.bounds`: `(minx, miny, maxx, maxy)` over the ring's
vertices; `none` for an empty ring (shapely raises there, and every caller
in the source catches the exception). -/
def boundsOf : List Point → Option (ℚ × ℚ × ℚ × ℚ)
  | [] => none
  | (x, y) :: rest => some (rest.foldl boundsStep (x, y, x, y))

/-! ## Vectorizer — `extract_contours` (geospatial.py lines 18-76)

`cv2.findContours` and `cv2.approxPolyDP` are external: the traced contours
arrive as an input list, and the Douglas-Peucker step
(`cv2.approxPolyDP(contour, epsilon_factor * cv2.arcLength(contour, True), True)`)
is a function parameter `approx`.  shapely's `Polygon(...).is_valid` test is
the parameter `isValid`. -/

/-- Lines 63-65: `if polygon_points[0] != polygon_points[-1]:
polygon_points.append(polygon_points[0])` — close the ring by repeating the
first vertex unless it already equals the last. -/
def closeRing (pts : List Point) : List Point :=
  match pts with
  | [] => []
  | p :: _ => if pts.getLast? = some p then pts else pts ++ [p]

/-- Lines 45-72 of geospatial.py: per contour, drop it when
`cv2.contourArea` is below `min_area`; simplify; keep only results with at
least 3 vertices; close the ring; keep only rings passing the validity
check. -/
def extract_contours (min_area : ℚ) (approx : List Point → List Point)
    (isValid : List Point → Bool) (contours : List (List Point)) :
    List (List Point) :=
  contours.foldr
    (fun contour acc =>
      if contourArea contour < min_area then acc
      else
        let a := approx contour
        if 3 ≤ a.length then
          let ring := closeRing a
          if isValid ring then ring :: acc else acc
        else acc)
    []

/-! ## Polygon Post-Processor — `regularize_polygons` (lines 98-131) -/

/-- The axis-aligned bounding rectangle ring built at lines 120-124:
`Polygon([(minx,miny),(maxx,miny),(maxx,maxy),(minx,maxy),(minx,miny)])`;
an empty ring has no bounds and is returned unchanged (exception path). -/
def boundingRectOf (ring : List Point) : List Point :=
  match boundsOf ring with
  | none => ring
  | some (mnx, mny, mxx, mxy) =>
      [(mnx, mny), (mxx, mny), (mxx, mxy), (mnx, mxy), (mnx, mny)]

/-- Line 115's heuristic ratio `polygon.area / (width * height)`.  When the
bounding box is degenerate (`width * height = 0`) Python raises
`ZeroDivisionError` (caught at line 127); here the rational division gives
junk 0, and `regularize_polygon` tests the denominator explicitly. -/
def areaRatio (ring : List Point) : ℚ :=
  match boundsOf ring with
  | none => 0
  | some (mnx, mny, mxx, mxy) => polyArea ring / ((mxx - mnx) * (mxy - mny))

/-- Body of the loop at lines 109-129: replace the polygon by its bounding
rectangle exactly when the area ratio exceeds 0.8; keep it unchanged
otherwise, and also on the exception paths (empty ring, zero-area bounding
box). -/
def regularize_polygon (ring : List Point) : List Point :=
  match boundsOf ring with
  | none => ring
  | some (mnx, mny, mxx, mxy) =>
      if (mxx - mnx) * (mxy - mny) = 0 then ring
      else if polyArea ring / ((mxx - mnx) * (mxy - mny)) > 8/10 then
        [(mnx, mny), (mxx, mny), (mxx, mxy), (mnx, mxy), (mnx, mny)]
      else ring

/-- `regularize_polygons` (lines 98-131): elementwise regularization. -/
def regularize_polygons (rings : List (List Point)) : List (List Point) :=
  rings.map regularize_polygon

/-! ## Polygon Post-Processor — `merge_nearby_polygons` (lines 133-159)

The source buffers every polygon by `distance_threshold`, forms
`shapely.ops.unary_union` of the buffered shapes and returns the connected
components of the union.  Denotationally (standard planar-geometry
semantics, spec section 9), the components of the union of connected shapes
are the components of their pairwise-intersection graph, and two buffered
polygons intersect exactly when the originals lie within twice the buffer
distance.  The embedding works over axis-aligned rectangles, where the
squared Euclidean distance between shapes is rational and computable. -/

/-- An axis-aligned rectangular polygon, `minx ≤ maxx`, `miny ≤ maxy` not
enforced structurally. -/
structure Rect where
  minx : ℚ
  miny : ℚ
  maxx : ℚ
  maxy : ℚ
deriving DecidableEq

/-- Squared Euclidean distance between two axis-aligned rectangles
(0 when they touch or overlap). -/
def gapSq (r s : Rect) : ℚ :=
  let dx := max 0 (max (s.minx - r.maxx) (r.minx - s.maxx))
  let dy := max 0 (max (s.miny - r.maxy) (r.miny - s.maxy))
  dx * dx + dy * dy

/-- Do the `d`-buffers of two rectangles intersect?  The buffer of each is
all points within distance `d`, so the buffers meet exactly when the
rectangles are within `2·d` of each other. -/
def buffersOverlap (d : ℚ) (r s : Rect) : Bool :=
  decide (gapSq r s ≤ (2 * d) * (2 * d))

/-- Insert `p` into the component structure: groups touching `p` fuse with
it into one group (this is how `unary_union` glues overlapping buffered
shapes). -/
def addToGroups (adj : α → α → Bool) (gs : List (List α)) (p : α) :
    List (List α) :=
  let t := gs.partition (fun g => g.any (adj p))
  (p :: t.1.flatten) :: t.2

/-- Connected components of the `adj` graph on `ps`, built incrementally. -/
def mergeGroups (adj : α → α → Bool) (ps : List α) : List (List α) :=
  ps.foldl (addToGroups adj) []

/-- `merge_nearby_polygons` (lines 133-159), denotationally: the returned
list of merged shapes corresponds one-to-one with the connected components
of the buffered-overlap graph; `[]` in gives `[]` out (line 144). -/
def merge_nearby_polygons (distance_threshold : ℚ) (polygons : List Rect) :
    List (List Rect) :=
  mergeGroups (buffersOverlap distance_threshold) polygons

/-! ## Feature Collection Assembler (lines 321-384) -/

/-- One GeoJSON feature: lines 373-380 assign `id = i + 1`,
`properties.name = "Feature {i+1}"`, and the transformed exterior ring. -/
structure Feature where
  id : ℕ
  name : String
  ring : List Point
deriving DecidableEq

/-- A GeoJSON FeatureCollection (`{"type": "FeatureCollection",
"features": [...]}`). -/
structure FeatureCollection where
  features : List Feature
deriving DecidableEq

/-- `transform_point` (lines 351-356): linear interpolation per axis with
the vertical axis inverted. -/
def transform_point (image_width image_height min_lon min_lat max_lon max_lat
    x y : ℚ) : Point :=
  (min_lon + (x / image_width) * (max_lon - min_lon),
   max_lat - (y / image_height) * (max_lat - min_lat))

/-- `convert_to_geojson_with_transform` (lines 321-384) with bounds always
supplied (the pipeline caller at lines 450-454 passes them explicitly; the
`None`-default branch at lines 339-342 is the caller's responsibility here). -/
def convert_to_geojson_with_transform (polygons : List (List Point))
    (image_height image_width min_lat min_lon max_lat max_lon : ℚ) :
    FeatureCollection :=
  ⟨polygons.enum.map (fun ir =>
    { id := ir.1 + 1
      name := "Feature " ++ toString (ir.1 + 1)
      ring := ir.2.map (fun p =>
        transform_point image_width image_height min_lon min_lat max_lon
          max_lat p.1 p.2) })⟩

/-! ## Georeferencer — `extract_geo_coordinates_from_image` (lines 161-319)

A geographic bounding box is returned in source order
`(min_lat, min_lon, max_lat, max_lon)`. -/

/-- A geographic bounding box in the tuple order the source returns:
`(min_lat, min_lon, max_lat, max_lon)`. -/
structure GeoBox where
  minLat : ℚ
  minLon : ℚ
  maxLat : ℚ
  maxLon : ℚ
deriving DecidableEq

/-- EXIF GPS payload (tag 34853 with keys 1-4 present): hemisphere
references and degrees/minutes/seconds as `(numerator, denominator)`
rational pairs, exactly the layout read at lines 291-300. -/
structure GpsInfo where
  latRef : String
  lat : (ℤ × ℤ) × (ℤ × ℤ) × (ℤ × ℤ)
  lonRef : String
  lon : (ℤ × ℤ) × (ℤ × ℤ) × (ℤ × ℤ)
deriving DecidableEq

/-- Lines 293 and 300:
`v[0][0]/v[0][1] + v[1][0]/(v[1][1]*60) + v[2][0]/(v[2][1]*3600)`.
A zero denominator raises `ZeroDivisionError` in Python (caught by the
function-level handler, giving `None` overall), modelled as `none`. -/
def dmsToDeg (v : (ℤ × ℤ) × (ℤ × ℤ) × (ℤ × ℤ)) : Option ℚ :=
  if v.1.2 = 0 ∨ v.2.1.2 = 0 ∨ v.2.2.2 = 0 then none
  else some ((v.1.1 : ℚ) / (v.1.2 : ℚ)
    + (v.2.1.1 : ℚ) / ((v.2.1.2 : ℚ) * 60)
    + (v.2.2.1 : ℚ) / ((v.2.2.2 : ℚ) * 3600))

/-- The EXIF GPS branch (lines 283-314): convert both coordinates to
decimal degrees, negate for the `'S'` / `'W'` hemispheres, and expand the
point by `delta = 0.01` per side (line 305). `none` models both a missing
or incomplete GPS tag set and the exception path. -/
def exifMethod : Option GpsInfo → Option GeoBox
  | none => none
  | some g =>
      match dmsToDeg g.lat, dmsToDeg g.lon with
      | some latRaw, some lonRaw =>
          let latVal := if g.latRef = "S" then -latRaw else latRaw
          let lonVal := if g.lonRef = "W" then -lonRaw else lonRaw
          some ⟨latVal - 1/100, lonVal - 1/100, latVal + 1/100, lonVal + 1/100⟩
      | _, _ => none

/-- Line 186-191: `brazil_indicators = ['brazil', 'trees_brazil', 'trees']`,
matched case-insensitively against the file path. -/
def brazilIndicator (image_path : String) : Bool :=
  ["brazil", "trees_brazil", "trees"].any
    (fun ind => strHasSub (lowerStr image_path) ind)

/-- Lines 216-222: any of the GeoTIFF indicator substrings occurring
(case-sensitively) in `str(img.tag)`. -/
def geotiffIndicator (tagStr : String) : Bool :=
  ["ModelPixelScale", "ModelTiepoint", "GeoKey", "GeoAscii"].any
    (fun ind => strHasSub tagStr ind)

/-- Observable metadata of a PIL image, as read by
`extract_geo_coordinates_from_image`:
`hasTag` is `hasattr(img, 'tag') and img.tag` (line 175); `tagDict` is
`img.tag.items()` as a tag-id/value list (line 183); `tagStr` is
`str(img.tag)` (lines 216-234); `logMatches` is the truth of
`re.findall(r"ModelPixelScaleTag.*?value: b'(.*?)'", str(img.tag))`
(lines 226-227, the regex itself being external); `exifGps` is the decoded
GPS tag set when `img._getexif()` is truthy with a complete tag 34853
(lines 283-289), else `none`; `width`/`height` are `img.size` (line 269). -/
structure ImgMeta where
  hasTag : Bool
  tagDict : List (ℕ × List ℚ)
  tagStr : String
  logMatches : Bool
  exifGps : Option GpsInfo
  width : ℚ
  height : ℚ
deriving DecidableEq

/-- The loop at lines 205-212: scan the tag dictionary for
`ModelPixelScaleTag` (33550) and `ModelTiepointTag` (33922); a later
occurrence overwrites an earlier one. -/
def scanTags (tagDict : List (ℕ × List ℚ)) :
    Option (List ℚ) × Option (List ℚ) :=
  tagDict.foldl
    (fun st tv =>
      if tv.1 = 33550 then (some tv.2, st.2)
      else if tv.1 = 33922 then (st.1, some tv.2)
      else st)
    (none, none)

/-- Python truthiness of a tag value: present and a non-empty sequence. -/
def tagTruthy : Option (List ℚ) → Bool
  | none => false
  | some v => !v.isEmpty

/-- Lines 259-278: read scales `v[0]`, `v[1]` and tiepoint entries
`v[0]`..`v[5]`; an out-of-range index raises `IndexError` (caught at
function level, `None` overall).  On success the box is
`(y − height·y_scale, x, y, x + width·x_scale)`. -/
def tiepointBox (width height : ℚ) (ps tp : List ℚ) : Option GeoBox :=
  match ps.get? 0, ps.get? 1, tp.get? 0, tp.get? 1, tp.get? 2,
      tp.get? 3, tp.get? 4, tp.get? 5 with
  | some xScale, some yScale, some _, some _, some _,
      some x, some y, some _ =>
      some ⟨y - height * yScale, x, y, x + width * xScale⟩
  | _, _, _, _, _, _, _, _ => none

/-- The TIFF-tag branch (lines 175-280), taken when the image has a truthy
`tag` attribute.  In order: the hard-coded Brazil box when the tag
dictionary is empty and the filename matches a Brazil indicator
(lines 193-203); the hard-coded Rio box when GeoTIFF indicators or the raw
regex fire without a truthy pixel-scale tag (lines 229-255); the
tie-point/pixel-scale computation (lines 259-278); otherwise `None`. -/
def tagMethod (tagDict : List (ℕ × List ℚ)) (tagStr : String)
    (logMatches : Bool) (width height : ℚ) (image_path : String) :
    Option GeoBox :=
  if tagDict.isEmpty && brazilIndicator image_path then
    some ⟨-2296/100, -4338/100, -2294/100, -4336/100⟩
  else
    let st := scanTags tagDict
    if (logMatches || geotiffIndicator tagStr) && !tagTruthy st.1 then
      if brazilIndicator image_path || strHasSub tagStr "Brazil"
          || strHasSub tagStr "brazil" then
        some ⟨-2298/100, -434/10, -2292/100, -433/10⟩
      else if logMatches then
        some ⟨-2298/100, -434/10, -2292/100, -433/10⟩
      else none
    else
      if tagTruthy st.1 && tagTruthy st.2 then
        match st.1, st.2 with
        | some ps, some tp => tiepointBox width height ps tp
        | _, _ => none
      else none

/-- `extract_geo_coordinates_from_image` (lines 161-319): the TIFF-tag
branch runs whenever the image has a truthy `tag` attribute; the EXIF
branch is the `elif` at line 283, reached only otherwise.  All failures
inside either branch yield `none` (the source catches every exception and
returns `None`). -/
def extract_geo_coordinates_from_image (meta : ImgMeta)
    (image_path : String) : Option GeoBox :=
  if meta.hasTag then
    tagMethod meta.tagDict meta.tagStr meta.logMatches meta.width meta.height
      image_path
  else
    exifMethod meta.exifGps

/-- The default placeholder box of lines 445-447 (Central US):
`min_lat, min_lon = 32.0, -98.0`; `max_lat, max_lon = 34.0, -96.0`. -/
def defaultBox : GeoBox := ⟨32, -98, 34, -96⟩

/-- Lines 441-447 of `process_image_to_geojson`: use the extracted
coordinates when present, else the default box. -/
def resolvedBounds (meta : ImgMeta) (image_path : String) : GeoBox :=
  (extract_geo_coordinates_from_image meta image_path).getD defaultBox

/-! ## Segmenter — segmentation.py

The three `segment_by_*` helpers each decode the image with
`cv2.imread`, falling back to PIL, and return `None` on total decode
failure (their `except` blocks).  The numeric mask operations (Gaussian
blur, thresholding) are external OpenCV calls; the embedding records which
strategy with which parameters runs on which decoded image. -/

/-- A decoded raster: only its pixel dimensions are observed by the
pipeline model (the pixel grid itself feeds external OpenCV calls). -/
structure RawImg where
  width : ℚ
  height : ℚ
deriving DecidableEq

/-- The two independent decode paths of each `segment_by_*` helper and of
`extract_contours`: `cv2.imread` and `PIL.Image.open`; `none` means that
path fails on this file. -/
structure ImgSrc where
  cvImage : Option RawImg
  pilImage : Option RawImg
deriving DecidableEq

/-- `img = cv2.imread(path); if img is None: img = PIL...` — OpenCV first,
PIL as fallback, overall failure when both fail. -/
def decodeImage (src : ImgSrc) : Option RawImg :=
  match src.cvImage with
  | some i => some i
  | none => src.pilImage

/-- The segmentation strategy actually invoked, with its tuned parameters:
`adaptive block_size c sigma` is `segment_by_adaptive_threshold`,
`colorThreshold threshold channel sigma` is `segment_by_color_threshold`
(channels indexed `0=R, 1=G, 2=B` per its docstring), and `otsu sigma` is
`segment_by_otsu`. -/
inductive Strategy where
  | adaptive (block_size c sigma : ℚ)
  | colorThreshold (threshold : ℚ) (channel : ℕ) (sigma : ℚ)
  | otsu (sigma : ℚ)
deriving DecidableEq

/-- The dispatch at segmentation.py lines 177-200: `feature_type.lower()`
selects buildings → adaptive(15, 2, 1.0); trees/vegetation →
colorThreshold(140, green, 1.5); water → colorThreshold(120, red, 2.0);
anything else → otsu(1.0). -/
def selectStrategy (feature_type : String) : Strategy :=
  if lowerStr feature_type = "buildings" then .adaptive 15 2 1
  else if lowerStr feature_type = "trees" || lowerStr feature_type = "vegetation"
    then .colorThreshold 140 1 (3/2)
  else if lowerStr feature_type = "water" then .colorThreshold 120 0 2
  else .otsu 1

/-- `segment_and_extract_features` (segmentation.py lines 159-237): decode
failure in the selected `segment_by_*` helper gives `(None, [])`
(lines 202-204); otherwise the chosen strategy produces the mask and the
downstream contour/simplify/regularize/merge chain — an external
computation over actual pixels, the parameter `vectorize` — produces the
polygon list. -/
def segment_and_extract_features
    (vectorize : Strategy → RawImg → List (List Point))
    (src : ImgSrc) (feature_type : String) :
    Option (Strategy × RawImg) × List (List Point) :=
  match decodeImage src with
  | none => (none, [])
  | some img =>
      ((some (selectStrategy feature_type, img)),
       vectorize (selectStrategy feature_type) img)

/-! ## Pipeline — `process_image_to_geojson` (geospatial.py lines 386-460) -/

/-- `process_image_to_geojson`: open the image for its dimensions (PIL; a
decode failure raises and the outer handler returns the empty collection,
lines 458-460); segment and vectorize; return the empty collection when no
polygons survive (lines 415-417); resolve bounds from the original image
when one is found on disk, else from the processed image (lines 419-447);
assemble the feature collection (lines 449-456).  `origMeta` carries the
metadata and path of the original image when the `_processed` lookup at
lines 420-429 finds one. -/
def process_image_to_geojson
    (vectorize : Strategy → RawImg → List (List Point))
    (src : ImgSrc) (meta : ImgMeta) (image_path : String)
    (origMeta : Option (ImgMeta × String)) (feature_type : String) :
    FeatureCollection :=
  match src.pilImage with
  | none => ⟨[]⟩
  | some img =>
      let polys := (segment_and_extract_features vectorize src feature_type).2
      if polys.isEmpty then ⟨[]⟩
      else
        let coords :=
          match origMeta with
          | some mp =>
              match extract_geo_coordinates_from_image mp.1 mp.2 with
              | some c => some c
              | none => extract_geo_coordinates_from_image meta image_path
          | none => extract_geo_coordinates_from_image meta image_path
        let b := coords.getD defaultBox
        convert_to_geojson_with_transform polys img.height img.width
          b.minLat b.minLon b.maxLat b.maxLon

/-! ## Concrete instances used by witnesses and counterexamples -/

/-- A northern-hemisphere / western-hemisphere GPS tag set:
40°30'00" N, 74°00'00" W. -/
def gps0 : GpsInfo := ⟨"N", ((40, 1), (30, 1), (0, 1)), "W", ((74, 1), (0, 1), (0, 1))⟩

/-- A TIFF image with a truthy tag attribute, an empty tag dictionary, no
GeoTIFF indicators, and a decodable EXIF GPS point. -/
def m1 : ImgMeta := ⟨true, [], "", false, some gps0, 10, 10⟩

/-- A photographic image (no TIFF tag attribute) carrying the GPS point of
`gps0`. -/
def m4 : ImgMeta := ⟨false, [], "", false, some gps0, 10, 10⟩

/-- A TIFF image with a truthy tag attribute, an empty tag dictionary, and
no other metadata at all. -/
def m10 : ImgMeta := ⟨true, [], "", false, none, 10, 10⟩

/-- A concrete metadata carrying both geospatial TIFF tags: scales (2, 3),
tie-point origin (100, 50), image 4 × 5 pixels. -/
def m3 : ImgMeta :=
  ⟨true, [(33550, [2, 3]), (33922, [0, 0, 0, 100, 50, 0])], "", false, none, 4, 5⟩

/-- A traced 10 × 10 square contour (open, as cv2 contours are). -/
def cs0 : List (List Point) := [[(0, 0), (10, 0), (10, 10), (0, 10)]]

/-- A concrete validity predicate: the ring has at least 3 distinct
vertices (a necessary condition of OGC validity, decidable). -/
def valid0 (r : List Point) : Bool := decide (3 ≤ r.dedup.length)

/-- The ring `extract_contours` produces from `cs0`: the square closed by
repeating its first vertex. -/
def r0 : List Point := [(0, 0), (10, 0), (10, 10), (0, 10), (0, 0)]

/-- A closed unit-square-times-ten ring whose area fills its bounding box
(area ratio 1). -/
def sq0 : List Point := [(0, 0), (10, 0), (10, 10), (0, 10), (0, 0)]

/-- Two unit squares 99 pixels apart: far beyond twice the default buffer
distance 5. -/
def ps7 : List Rect := [⟨0, 0, 1, 1⟩, ⟨100, 0, 101, 1⟩]

/-! ## Claim theorems -/

/-- A list-shape fact about the assembler: mapping `Feature.ring` over the
enumerated features recovers the per-polygon vertex map. -/
theorem features_ring_map (polys : List (List Point)) (f : Point → Point)
    (nm : ℕ → String) :
    (polys.enum.map (fun ir =>
        ({ id := ir.1 + 1, name := nm ir.1, ring := ir.2.map f } : Feature))).map
      Feature.ring = polys.map (fun r => r.map f) := by
  rw [List.map_map]
  have : (Feature.ring ∘ fun ir : ℕ × List Point =>
      ({ id := ir.1 + 1, name := nm ir.1, ring := ir.2.map f } : Feature))
      = (fun r : List Point => r.map f) ∘ Prod.snd := rfl
  rw [this, ← List.map_map, List.enum_map_snd]

/-- C1: the assembler maps every pixel vertex `(x, y)` to
`lon = west + (x/width)·(east − west)`,
`lat = north − (y/height)·(north − south)`; the vertex `(0,0)` in the box
`(west = −75, south = 40, east = −73, north = 42)` lands exactly on
`(−75, 42)`, the top-left corner (latitude axis inverted); and
`convert_to_geojson_with_transform` applies exactly this map to every
vertex of every polygon. -/
theorem c1_transform_point_spec (west south east north w h x y : ℚ)
    (_hw : 0 < w) (_hh : 0 < h) :
    transform_point w h west south east north x y
      = (west + (x / w) * (east - west), north - (y / h) * (north - south))
    ∧ transform_point w h (-75) 40 (-73) 42 0 0 = (-75, 42)
    ∧ ∀ (polys : List (List Point)) (mla mlo mxa mxo : ℚ),
        (convert_to_geojson_with_transform polys h w mla mlo mxa mxo).features.map
            Feature.ring
          = polys.map (fun r => r.map (fun p =>
              transform_point w h mlo mla mxo mxa p.1 p.2)) := by
  refine ⟨rfl, ?_, ?_⟩
  · simp [transform_point]
  · intro polys mla mlo mxa mxo
    simpa [convert_to_geojson_with_transform] using
      features_ring_map polys
        (fun p => transform_point w h mlo mla mxo mxa p.1 p.2)
        (fun i => "Feature " ++ toString (i + 1))

/-- Witness for C1 at width = height = 100. -/
theorem c1_transform_point_spec_witness :
    (0 : ℚ) < 100 ∧ transform_point 100 100 (-75) 40 (-73) 42 0 0 = (-75, 42) :=
  ⟨by norm_num,
   (c1_transform_point_spec (-75) 40 (-73) 42 100 100 0 0 (by norm_num)
      (by norm_num)).2.1⟩

/-- C9: the Segmenter dispatches `"buildings"` to adaptive local
thresholding, `"trees"`/`"vegetation"` to fixed thresholding on the green
channel, `"water"` to fixed thresholding on channel 0 with the heaviest
smoothing, and every other string — `"roads"` included — to Otsu global
thresholding, totally (no error case exists). -/
theorem c9_feature_dispatch :
    selectStrategy "buildings" = .adaptive 15 2 1
    ∧ selectStrategy "Buildings" = .adaptive 15 2 1
    ∧ selectStrategy "trees" = .colorThreshold 140 1 (3/2)
    ∧ selectStrategy "vegetation" = .colorThreshold 140 1 (3/2)
    ∧ selectStrategy "water" = .colorThreshold 120 0 2
    ∧ selectStrategy "roads" = .otsu 1
    ∧ ∀ s : String, lowerStr s ≠ "buildings" → lowerStr s ≠ "trees" →
        lowerStr s ≠ "vegetation" → lowerStr s ≠ "water" →
        selectStrategy s = .otsu 1 := by
  refine ⟨by rfl, by rfl, by rfl, by rfl, by rfl, by rfl, ?_⟩
  intro s h1 h2 h3 h4
  simp [selectStrategy, h1, h2, h3, h4]

/-- Witness for C9: an arbitrary unrecognized string falls through to
Otsu. -/
theorem c9_feature_dispatch_witness :
    selectStrategy "ROADS" = .otsu 1 :=
  c9_feature_dispatch.2.2.2.2.2.2 "ROADS" (by decide) (by decide) (by decide)
    (by decide)

/-- C10: georeferencing depends on the file path string: for every image
with a truthy tag attribute and an empty tag dictionary whose path contains
`"brazil"`, `"trees_brazil"` or `"trees"` case-insensitively, the
hard-coded Brazil box `(−22.96, −43.38, −22.94, −43.36)` is returned; and
the same metadata under the path `"trees.tif"` versus `"image.tif"` gives
different results, so content-identical images can receive different
geographic coordinates. -/
theorem c10_filename_dependence :
    (∀ (meta : ImgMeta) (path : String), meta.hasTag = true →
      meta.tagDict = [] → brazilIndicator path = true →
      extract_geo_coordinates_from_image meta path
        = some ⟨-2296/100, -4338/100, -2294/100, -4336/100⟩)
    ∧ extract_geo_coordinates_from_image m10 "trees.tif"
        = some ⟨-2296/100, -4338/100, -2294/100, -4336/100⟩
    ∧ extract_geo_coordinates_from_image m10 "image.tif" = none := by
  refine ⟨?_, by rfl, by rfl⟩
  intro meta path h1 h2 h3
  simp [extract_geo_coordinates_from_image, tagMethod, h1, h2, h3]

/-- Witness for C10 applied at the concrete metadata `m10` and the path
`"brazil.png"`. -/
theorem c10_filename_dependence_witness :
    extract_geo_coordinates_from_image m10 "brazil.png"
      = some ⟨-2296/100, -4338/100, -2294/100, -4336/100⟩ :=
  c10_filename_dependence.1 m10 "brazil.png" rfl rfl (by rfl)

/-- C3: when both a pixel-scale tag (33550, values `sx :: sy :: _`) and a
tie-point tag (33922, values `i :: j :: k :: ox :: oy :: z :: _`) are
present, the georeferencer returns exactly
`west = ox`, `north = oy`, `east = ox + width·sx`, `south = oy − height·sy`
(tuple order `(min_lat, min_lon, max_lat, max_lon)`). -/
theorem c3_tiepoint_pixel_scale (meta : ImgMeta) (path : String)
    (sx sy : ℚ) (svr : List ℚ) (i j k ox oy z : ℚ) (tvr : List ℚ)
    (htag : meta.hasTag = true)
    (hscan : scanTags meta.tagDict
      = (some (sx :: sy :: svr), some (i :: j :: k :: ox :: oy :: z :: tvr))) :
    extract_geo_coordinates_from_image meta path
      = some ⟨oy - meta.height * sy, ox, oy, ox + meta.width * sx⟩ := by
  have hne : meta.tagDict ≠ [] := by
    intro h0
    rw [h0] at hscan
    simp [scanTags] at hscan
  have hempty : meta.tagDict.isEmpty = false := by
    simpa [List.isEmpty_iff] using hne
  simp [extract_geo_coordinates_from_image, htag, tagMethod, hempty, hscan,
    tagTruthy, tiepointBox]

/-- Witness for C3: at `m3`, the box is
`(50 − 5·3, 100, 50, 100 + 4·2) = (35, 100, 50, 108)`. -/
theorem c3_tiepoint_pixel_scale_witness :
    extract_geo_coordinates_from_image m3 "x.tif"
      = some ⟨50 - 5 * 3, 100, 50, 100 + 4 * 2⟩ :=
  c3_tiepoint_pixel_scale m3 "x.tif" 2 3 [] 0 0 0 100 50 0 [] rfl (by rfl)

/-- Helper computation: the EXIF method on `gps0` yields the 0.01-degree
box around (40.5, −74). -/
theorem exifMethod_gps0 :
    exifMethod (some gps0) = some ⟨4049/100, -7401/100, 4051/100, -7399/100⟩ := by
  have hN : ("N" : String) ≠ "S" := by decide
  norm_num [exifMethod, gps0, dmsToDeg, hN]

/-- Counterexample for C4: the EXIF buffer in the code is `delta = 0.01`
(geospatial.py line 305), ten times the claimed ≈0.001 degrees.  For the
GPS point 40°30'N 74°W the code returns the box
`(40.49, −74.01, 40.51, −73.99)`: the north edge sits `1/100` of a degree
above the point's latitude `40.5`, and `1/100 ≠ 1/1000`. -/
theorem c4_buffer_counterexample :
    extract_geo_coordinates_from_image m4 "photo.jpg"
      = some ⟨4049/100, -7401/100, 4051/100, -7399/100⟩
    ∧ (4051/100 : ℚ) - 81/2 = 1/100
    ∧ ((1 : ℚ)/100 ≠ 1/1000) := by
  refine ⟨?_, by norm_num, by norm_num⟩
  have h : extract_geo_coordinates_from_image m4 "photo.jpg"
      = exifMethod (some gps0) := rfl
  rw [h]
  exact exifMethod_gps0

/-- C4 as amended (buffer 0.01 degrees, not 0.001): for every photographic
image (no TIFF tag attribute) whose EXIF GPS rationals convert via
`deg + min/60 + sec/3600` (`dmsToDeg`), the result is that point — sign
negated for `'S'` latitude and `'W'` longitude — expanded by exactly
`1/100` of a degree (≈1.1 km) on each side. -/
theorem c4_exif_buffer (meta : ImgMeta) (path : String) (g : GpsInfo)
    (rawLat rawLon : ℚ)
    (htag : meta.hasTag = false) (hg : meta.exifGps = some g)
    (hlat : dmsToDeg g.lat = some rawLat)
    (hlon : dmsToDeg g.lon = some rawLon) :
    extract_geo_coordinates_from_image meta path
      = some ⟨(if g.latRef = "S" then -rawLat else rawLat) - 1/100,
              (if g.lonRef = "W" then -rawLon else rawLon) - 1/100,
              (if g.latRef = "S" then -rawLat else rawLat) + 1/100,
              (if g.lonRef = "W" then -rawLon else rawLon) + 1/100⟩ := by
  simp [extract_geo_coordinates_from_image, htag, hg, exifMethod, hlat, hlon]

/-- Witness for C4's amended statement at the concrete GPS point `gps0`
(40°30'N 74°W decodes to latitude 81/2 and longitude 74, hemisphere 'W'
negates). -/
theorem c4_exif_buffer_witness :
    extract_geo_coordinates_from_image m4 "photo.jpg"
      = some ⟨(if gps0.latRef = "S" then -(81/2 : ℚ) else 81/2) - 1/100,
              (if gps0.lonRef = "W" then -(74 : ℚ) else 74) - 1/100,
              (if gps0.latRef = "S" then -(81/2 : ℚ) else 81/2) + 1/100,
              (if gps0.lonRef = "W" then -(74 : ℚ) else 74) + 1/100⟩ :=
  c4_exif_buffer m4 "photo.jpg" gps0 (81/2) 74 rfl rfl
    (by norm_num [gps0, dmsToDeg]) (by norm_num [gps0, dmsToDeg])

/-- Counterexample for C2: the claimed fallback chain does not exist in
`extract_geo_coordinates_from_image`.  The image `m1` has a truthy TIFF tag
attribute but no geospatial tags, and carries a decodable EXIF GPS point;
the claim's chain would fall through to the EXIF method and succeed, but
the code never consults EXIF for an image with a tag attribute: extraction
returns `None` and the caller uses the default box even though the EXIF
method succeeds on the very same metadata. -/
theorem c2_fallback_counterexample :
    extract_geo_coordinates_from_image m1 "photo.tif" = none
    ∧ exifMethod m1.exifGps = some ⟨4049/100, -7401/100, 4051/100, -7399/100⟩
    ∧ resolvedBounds m1 "photo.tif" = defaultBox := by
  refine ⟨by rfl, ?_, by rfl⟩
  have h : m1.exifGps = some gps0 := rfl
  rw [h]
  exact exifMethod_gps0

/-- C2 as amended: in `extract_geo_coordinates_from_image` there is no
embedded-CRS/affine-transform method; images with a truthy TIFF tag
attribute go through the tag branch only — the result never depends on the
EXIF data, so EXIF can be skipped even when it would succeed — while images
without one go straight to the EXIF method; failures are caught (the
function totally returns an `Option`), and the caller substitutes the fixed
default box exactly when extraction returns `None`. -/
theorem c2_fallback_structure (meta : ImgMeta) (path : String)
    (g : Option GpsInfo) :
    (meta.hasTag = true →
      extract_geo_coordinates_from_image { meta with exifGps := g } path
        = extract_geo_coordinates_from_image meta path)
    ∧ (meta.hasTag = false →
      extract_geo_coordinates_from_image meta path = exifMethod meta.exifGps)
    ∧ (extract_geo_coordinates_from_image meta path = none →
      resolvedBounds meta path = defaultBox)
    ∧ (∀ b, extract_geo_coordinates_from_image meta path = some b →
      resolvedBounds meta path = b) := by
  refine ⟨?_, ?_, ?_, ?_⟩
  · intro h
    simp [extract_geo_coordinates_from_image, h]
  · intro h
    simp [extract_geo_coordinates_from_image, h]
  · intro h
    simp [resolvedBounds, h]
  · intro b h
    simp [resolvedBounds, h]

/-- Witness for C2's amended statement: `m1` has a tag attribute, so
replacing its EXIF data changes nothing, and its `None` extraction resolves
to the default box. -/
theorem c2_fallback_structure_witness :
    extract_geo_coordinates_from_image { m1 with exifGps := none } "photo.tif"
      = extract_geo_coordinates_from_image m1 "photo.tif"
    ∧ resolvedBounds m1 "photo.tif" = defaultBox :=
  ⟨(c2_fallback_structure m1 "photo.tif" none).1 rfl,
   (c2_fallback_structure m1 "photo.tif" none).2.2.1 (by rfl)⟩

/-- C8: when both decode paths fail, the Segmenter returns a null mask with
no polygons rather than raising, and the pipeline returns the syntactically
valid empty FeatureCollection. -/
theorem c8_decode_failure_empty_collection
    (vectorize : Strategy → RawImg → List (List Point)) (src : ImgSrc)
    (meta : ImgMeta) (path : String) (orig : Option (ImgMeta × String))
    (ft : String) (hcv : src.cvImage = none) (hpil : src.pilImage = none) :
    segment_and_extract_features vectorize src ft = (none, [])
    ∧ process_image_to_geojson vectorize src meta path orig ft
        = FeatureCollection.mk [] := by
  constructor
  · simp [segment_and_extract_features, decodeImage, hcv, hpil]
  · simp [process_image_to_geojson, hpil]

/-- Witness for C8 at a concretely undecodable source. -/
theorem c8_decode_failure_empty_collection_witness :
    segment_and_extract_features (fun _ _ => []) ⟨none, none⟩ "trees"
        = (none, [])
    ∧ process_image_to_geojson (fun _ _ => []) ⟨none, none⟩ m10 "p.png" none
        "trees" = FeatureCollection.mk [] :=
  c8_decode_failure_empty_collection (fun _ _ => []) ⟨none, none⟩ m10 "p.png"
    none "trees" rfl rfl

/-- Unfolding `extract_contours` over one contour. -/
theorem extract_contours_cons (min_area : ℚ)
    (approx : List Point → List Point) (isValid : List Point → Bool)
    (c : List Point) (cs : List (List Point)) :
    extract_contours min_area approx isValid (c :: cs)
      = if contourArea c < min_area then
          extract_contours min_area approx isValid cs
        else if 3 ≤ (approx c).length then
          (if isValid (closeRing (approx c)) then
            closeRing (approx c) :: extract_contours min_area approx isValid cs
          else extract_contours min_area approx isValid cs)
        else extract_contours min_area approx isValid cs := rfl

/-- `closeRing` really closes: on a nonempty input the first and last
vertices of the output coincide. -/
theorem closeRing_closed (p : Point) (rest : List Point) :
    (closeRing (p :: rest)).head? = some p
    ∧ (closeRing (p :: rest)).getLast? = some p := by
  unfold closeRing
  by_cases h : (p :: rest).getLast? = some p
  · simp [h]
  · simp only [h, if_false, ite_false]
    constructor
    · simp
    · rw [show p :: rest ++ [p] = (p :: rest) ++ [p] from rfl,
        List.getLast?_concat]

/-- C5: under the standard geometry-library guarantee that a ring passing
the validity check has at least 3 distinct vertices (spec section 9, OGC
validity), every ring returned by `extract_contours` — for every mask
contour set, simplification function and validity check — is closed
(first vertex equals last), has at least 3 distinct vertices, and passed
the validity check. -/
theorem c5_vectorizer_ring_invariants (min_area : ℚ)
    (approx : List Point → List Point) (isValid : List Point → Bool)
    (contours : List (List Point))
    (hvalid : ∀ r, isValid r = true → 3 ≤ r.dedup.length) :
    ∀ q ∈ extract_contours min_area approx isValid contours,
      (∃ p, q.head? = some p ∧ q.getLast? = some p)
      ∧ 3 ≤ q.dedup.length ∧ isValid q = true := by
  induction contours with
  | nil =>
      intro q hq
      simp [extract_contours] at hq
  | cons c cs ih =>
      intro q hq
      rw [extract_contours_cons] at hq
      split_ifs at hq with h1 h2 h3
      · exact ih q hq
      · rcases List.mem_cons.mp hq with hq | hq
        · subst hq
          have hne : approx c ≠ [] := by
            intro h0
            rw [h0] at h2
            simp at h2
          obtain ⟨p, rest, hpr⟩ : ∃ p rest, approx c = p :: rest := by
            cases hx : approx c with
            | nil => exact absurd hx hne
            | cons p rest => exact ⟨p, rest, rfl⟩
          refine ⟨⟨p, ?_⟩, hvalid _ h3, h3⟩
          rw [hpr]
          exact closeRing_closed p rest
        · exact ih q hq
      · exact ih q hq
      · exact ih q hq

/-- Witness for C5 at the concrete contour set `cs0` with identity
simplification and the distinct-vertex validity check: the closed square
`r0` is returned, is closed and has 4 distinct vertices. -/
theorem c5_vectorizer_ring_invariants_witness :
    r0 ∈ extract_contours 50 id valid0 cs0
    ∧ 3 ≤ r0.dedup.length ∧ valid0 r0 = true := by
  have hmem : r0 ∈ extract_contours 50 id valid0 cs0 := by
    rw [show extract_contours 50 id valid0 cs0 = [r0] from by
      norm_num [extract_contours, cs0, valid0, r0, contourArea, shoelaceCyc,
        shoelaceAux, cross, closeRing, List.dedup]]
    exact List.mem_singleton.mpr rfl
  have h := (c5_vectorizer_ring_invariants 50 id valid0 cs0
    (fun r hr => of_decide_eq_true hr)) r0 hmem
  exact ⟨hmem, h.2⟩

/-- The running bounds accumulator keeps `min ≤ max` on both axes. -/
theorem boundsFold_le (rest : List Point) :
    ∀ st : ℚ × ℚ × ℚ × ℚ, st.1 ≤ st.2.2.1 → st.2.1 ≤ st.2.2.2 →
      (rest.foldl boundsStep st).1 ≤ (rest.foldl boundsStep st).2.2.1
      ∧ (rest.foldl boundsStep st).2.1 ≤ (rest.foldl boundsStep st).2.2.2 := by
  induction rest with
  | nil => intro st h1 h2; exact ⟨h1, h2⟩
  | cons p ps ih =>
      intro st h1 h2
      simp only [List.foldl_cons]
      exact ih (boundsStep st p)
        (le_trans (min_le_right _ _) (le_max_right _ _))
        (le_trans (min_le_right _ _) (le_max_right _ _))

/-- Computed bounds always satisfy `minx ≤ maxx` and `miny ≤ maxy`. -/
theorem boundsOf_le (ring : List Point) (a b c d : ℚ)
    (h : boundsOf ring = some (a, b, c, d)) : a ≤ c ∧ b ≤ d := by
  cases ring with
  | nil => simp [boundsOf] at h
  | cons p rest =>
      obtain ⟨x, y⟩ := p
      simp only [boundsOf, Option.some.injEq] at h
      have hf := boundsFold_le rest (x, y, x, y) le_rfl le_rfl
      rw [h] at hf
      exact hf

/-- The bounds of the bounding rectangle ring are the original bounds. -/
theorem boundsOf_rect (a b c d : ℚ) (hac : a ≤ c) (hbd : b ≤ d) :
    boundsOf [(a, b), (c, b), (c, d), (a, d), (a, b)] = some (a, b, c, d) := by
  simp only [boundsOf, List.foldl_cons, List.foldl_nil, boundsStep,
    Option.some.injEq, Prod.mk.injEq]
  refine ⟨?_, ?_, ?_, ?_⟩ <;>
    (simp only [min_def, max_def]; split_ifs <;> linarith)

/-- Cyclic shoelace sum of the bounding rectangle ring. -/
theorem shoelace_rect (a b c d : ℚ) :
    shoelaceCyc [(a, b), (c, b), (c, d), (a, d), (a, b)]
      = 2 * (c - a) * (d - b) := by
  simp only [shoelaceCyc, shoelaceAux, cross]
  ring

/-- shapely area of the bounding rectangle ring is width times height. -/
theorem polyArea_rect (a b c d : ℚ) (hac : a ≤ c) (hbd : b ≤ d) :
    polyArea [(a, b), (c, b), (c, d), (a, d), (a, b)] = (c - a) * (d - b) := by
  rw [polyArea, shoelace_rect]
  rw [abs_of_nonneg (by nlinarith : (0 : ℚ) ≤ 2 * (c - a) * (d - b))]
  ring

/-- Regularizing a nondegenerate bounding rectangle returns it unchanged:
its area ratio is exactly 1. -/
theorem regularize_rect (a b c d : ℚ) (hac : a ≤ c) (hbd : b ≤ d)
    (hne : (c - a) * (d - b) ≠ 0) :
    regularize_polygon [(a, b), (c, b), (c, d), (a, d), (a, b)]
      = [(a, b), (c, b), (c, d), (a, d), (a, b)] := by
  simp only [regularize_polygon, boundsOf_rect a b c d hac hbd]
  rw [if_neg hne, polyArea_rect a b c d hac hbd, div_self hne]
  norm_num

/-- A polygon whose area ratio exceeds 0.8 has nondegenerate bounds, and
regularization replaces it by its bounding rectangle. -/
theorem ratio_pos_branch (ring : List Point) (h : areaRatio ring > 8/10) :
    ∃ a b c d : ℚ, boundsOf ring = some (a, b, c, d)
      ∧ (c - a) * (d - b) ≠ 0
      ∧ regularize_polygon ring = [(a, b), (c, b), (c, d), (a, d), (a, b)]
      ∧ boundingRectOf ring = [(a, b), (c, b), (c, d), (a, d), (a, b)] := by
  cases hb : boundsOf ring with
  | none =>
      simp only [areaRatio, hb] at h
      norm_num at h
  | some t =>
      obtain ⟨a, b, c, d⟩ := t
      refine ⟨a, b, c, d, rfl, ?_⟩
      simp only [areaRatio, hb] at h
      have hne : (c - a) * (d - b) ≠ 0 := by
        intro h0
        rw [h0, div_zero] at h
        norm_num at h
      refine ⟨hne, ?_, ?_⟩
      · simp only [regularize_polygon, hb]
        rw [if_neg hne, if_pos h]
      · simp only [boundingRectOf, hb]

/-- C6: regularization is idempotent — every polygon whose ratio of area to
bounding-box area exceeds 0.8 is replaced by its axis-aligned bounding
rectangle, and regularizing that rectangle again returns the identical
rectangle; every polygon with ratio at most 0.8 passes through
unchanged. -/
theorem c6_regularization_idempotent (ring : List Point) :
    (areaRatio ring > 8/10 →
      regularize_polygons [ring] = [boundingRectOf ring]
      ∧ regularize_polygons (regularize_polygons [ring])
          = regularize_polygons [ring])
    ∧ (areaRatio ring ≤ 8/10 → regularize_polygons [ring] = [ring]) := by
  constructor
  · intro h
    obtain ⟨a, b, c, d, hb, hne, hreg, hbr⟩ := ratio_pos_branch ring h
    have hle := boundsOf_le ring a b c d hb
    constructor
    · simp [regularize_polygons, hreg, hbr]
    · simp [regularize_polygons, hreg,
        regularize_rect a b c d hle.1 hle.2 hne]
  · intro h
    simp only [regularize_polygons, List.map_cons, List.map_nil,
      List.cons.injEq, and_true]
    cases hb : boundsOf ring with
    | none => simp only [regularize_polygon, hb]
    | some t =>
        obtain ⟨a, b, c, d⟩ := t
        simp only [regularize_polygon, hb]
        by_cases h0 : (c - a) * (d - b) = 0
        · rw [if_pos h0]
        · rw [if_neg h0]
          simp only [areaRatio, hb] at h
          rw [if_neg (not_lt.mpr h)]

/-- Witness for C6 at the 10 × 10 square ring `sq0` (area ratio 1):
regularizing twice equals regularizing once. -/
theorem c6_regularization_idempotent_witness :
    areaRatio sq0 > 8/10
    ∧ regularize_polygons (regularize_polygons [sq0])
        = regularize_polygons [sq0] := by
  have hr : areaRatio sq0 > 8/10 := by
    norm_num [areaRatio, sq0, boundsOf, boundsStep, polyArea, shoelaceCyc,
      shoelaceAux, cross]
  exact ⟨hr, ((c6_regularization_idempotent sq0).1 hr).2⟩

/-- Squared rectangle distance is symmetric. -/
theorem gapSq_comm (r s : Rect) : gapSq r s = gapSq s r := by
  simp only [gapSq]
  rw [max_comm (s.minx - r.maxx), max_comm (s.miny - r.maxy)]

/-- Adding an element adjacent to no existing group member opens a fresh
group and leaves the rest intact. -/
theorem addToGroups_fresh (adj : α → α → Bool) (gs : List (List α)) (p : α)
    (h : ∀ g ∈ gs, ∀ x ∈ g, adj p x = false) :
    addToGroups adj gs p = [p] :: gs := by
  have hany : ∀ g ∈ gs, (g.any (adj p)) = false := by
    intro g hg
    rw [List.any_eq_false]
    intro x hx
    simp [h g hg x hx]
  have hfil : gs.filter (fun g => g.any (adj p)) = [] := by
    rw [List.filter_eq_nil_iff]
    intro g hg
    simp [hany g hg]
  have hfil2 : gs.filter (not ∘ fun g => g.any (adj p)) = gs := by
    rw [List.filter_eq_self]
    intro g hg
    simp [Function.comp, hany g hg]
  simp only [addToGroups, List.partition_eq_filter_filter, hfil, hfil2,
    List.flatten_nil]

/-- When the processed elements are pairwise non-adjacent (in both
directions) and none of them is adjacent to any existing group member,
folding them into the group structure adds exactly one group each. -/
theorem mergeGroups_len_aux (adj : α → α → Bool) :
    ∀ (ps : List α) (gs : List (List α)),
      (∀ g ∈ gs, ∀ x ∈ g, ∀ p ∈ ps, adj p x = false) →
      List.Pairwise (fun x y => adj x y = false ∧ adj y x = false) ps →
      (ps.foldl (addToGroups adj) gs).length = gs.length + ps.length := by
  intro ps
  induction ps with
  | nil => intro gs _ _; simp
  | cons p rest ih =>
      intro gs hsep hpw
      rw [List.foldl_cons]
      rw [addToGroups_fresh adj gs p
        (fun g hg x hx => hsep g hg x hx p (List.mem_cons_self p rest))]
      rw [List.pairwise_cons] at hpw
      have hlen := ih ([p] :: gs) ?_ hpw.2
      · rw [hlen]
        simp only [List.length_cons]
        omega
      · intro g hg x hx q hq
        rcases List.mem_cons.mp hg with hgp | hgs
        · subst hgp
          rcases List.mem_singleton.mp hx with rfl
          exact (hpw.1 q hq).2
        · exact hsep g hgs x hx q (List.mem_cons_of_mem p hq)

/-- Counterexample for C7: two unit squares whose Euclidean distance is 6,
farther apart than the buffer distance 5 — so "no two polygons lie within
the buffer distance of each other" holds — yet their 5-buffers overlap
(6 < 2·5) and the merge returns one shape, not two. -/
theorem c7_merge_counterexample :
    gapSq ⟨0, 0, 1, 1⟩ ⟨7, 0, 8, 1⟩ > 5 * 5
    ∧ (merge_nearby_polygons 5 [⟨0, 0, 1, 1⟩, ⟨7, 0, 8, 1⟩]).length = 1 := by
  constructor
  · norm_num [gapSq]
  · have hadj : buffersOverlap 5 (⟨7, 0, 8, 1⟩ : Rect) ⟨0, 0, 1, 1⟩ = true := by
      rw [buffersOverlap, decide_eq_true_eq]
      norm_num [gapSq]
    simp [merge_nearby_polygons, mergeGroups, addToGroups,
      List.partition_eq_filter_filter, List.filter, hadj]

/-- C7 as amended: for every buffer distance `d ≥ 0` and every finite set
of polygons in which no two lie within TWICE the buffer distance of each
other (so that no two `d`-buffers intersect), merging returns exactly as
many shapes as there were inputs. -/
theorem c7_merge_count (d : ℚ) (ps : List Rect)
    (h : List.Pairwise (fun r s => gapSq r s > (2 * d) * (2 * d)) ps) :
    (merge_nearby_polygons d ps).length = ps.length := by
  have h' : List.Pairwise (fun r s =>
      buffersOverlap d r s = false ∧ buffersOverlap d s r = false) ps := by
    refine h.imp ?_
    intro r s hrs
    constructor
    · simp [buffersOverlap, not_le.mpr hrs]
    · rw [gapSq_comm] at hrs
      simp [buffersOverlap, not_le.mpr hrs]
  have := mergeGroups_len_aux (buffersOverlap d) ps []
    (by intro g hg; simp at hg) h'
  simpa [merge_nearby_polygons, mergeGroups] using this

/-- Witness for C7's amended statement at `ps7`: the squares are 99 apart,
beyond `2·5`, and the merge keeps both. -/
theorem c7_merge_count_witness :
    List.Pairwise (fun r s => gapSq r s > (2 * 5) * (2 * 5)) ps7
    ∧ (merge_nearby_polygons 5 ps7).length = ps7.length := by
  have hpw : List.Pairwise (fun r s => gapSq r s > (2 * 5) * (2 * 5)) ps7 := by
    simp only [ps7, List.pairwise_cons, List.mem_singleton,
      List.pairwise_singleton]
    constructor
    · intro s hs
      subst hs
      norm_num [gapSq]
    · trivial
  exact ⟨hpw, c7_merge_count 5 ps7 hpw⟩

end ForestAI
